import Mathlib

/-!
Shallow embedding of `src/server.js`: a small Express service backed by an
optional Postgres store (with a permanent in-memory fallback) and an optional
Redis client.  Mutable process globals become fields of `ServerState`; each
route handler becomes a function `... → ServerState → ServerState × Response`;
external-backend reachability on a given request is an explicit boolean
parameter of that request (a failed query throws in JS and is caught by the
handler's try/catch, which we model by the `false` branch).
-/

namespace Server

/-- A row of the `names` store: `{ id, name, created_at }` as produced by the
in-memory branch (line 87) and by the `names` table (`SERIAL` id,
`created_at TIMESTAMP`).  Timestamps are modelled as naturals. -/
structure Record where
  id : Nat
  name : String
  created_at : Nat
deriving Repr, DecidableEq

/-- A value stored in Redis: the string value, and the expiration attached to
it (`some ttl` when the `SET key value EX ttl` form was used, `none` for a
plain `SET`). -/
structure RedisEntry where
  value : String
  expiry : Option Nat
deriving Repr, DecidableEq

/-- Process-wide mutable state of `server.js`:
`inMemoryNames` (line 9), `useInMemory` (line 10), whether `pool` is non-null
(lines 13–20), whether `redis` is non-null (lines 23–27), `redisConnected`
(line 24), plus the state of the two external backends (the `names` table with
its `SERIAL` counter, and the Redis keyspace). -/
structure ServerState where
  inMemoryNames : List Record
  useInMemory : Bool
  dbConfigured : Bool
  dbRows : List Record
  dbNextId : Nat
  redisConfigured : Bool
  redisConnected : Bool
  redisKV : List (String × RedisEntry)
deriving Repr, DecidableEq

/-- State right after the top-level statements run (lines 9–36):
`useInMemory = !process.env.DATABASE_URL`, `pool` set iff `DATABASE_URL` is
set, `redis` set iff `REDIS_URL` is set; both stores empty, `SERIAL` at 1. -/
def initialState (databaseUrlSet redisUrlSet : Bool) : ServerState :=
  { inMemoryNames := []
    useInMemory := !databaseUrlSet
    dbConfigured := databaseUrlSet
    dbRows := []
    dbNextId := 1
    redisConfigured := redisUrlSet
    redisConnected := false
    redisKV := [] }

/-- JavaScript truthiness test `!x` for an optional string field of a JSON
body: true when the field is absent or the empty string (lines 81, 139). -/
def strFalsy : Option String → Bool
  | none => true
  | some s => s = ""

/-- JavaScript truthiness test `if (ttl)` for the optional numeric `ttl`
field (line 143): truthy iff present and non-zero. -/
def ttlTruthy : Option Nat → Bool
  | none => false
  | some t => t ≠ 0

/-- Lookup in the Redis keyspace (`redis.get`). -/
def kvLookup (kv : List (String × RedisEntry)) (k : String) : Option RedisEntry :=
  match kv.find? (fun p => p.1 = k) with
  | some p => some p.2
  | none => none

/-- Write to the Redis keyspace (`redis.set`): overwrite the key if present,
append it otherwise. -/
def kvSet : List (String × RedisEntry) → String → RedisEntry → List (String × RedisEntry)
  | [], k, e => [(k, e)]
  | (k', e') :: rest, k, e =>
      if k' = k then (k, e) :: rest else (k', e') :: kvSet rest k e

/-- The JSON responses the handlers of `server.js` can produce; `err` carries
the HTTP status of the error envelope. -/
inductive Response where
  | rootInfo (storage : String) (redisStatus : String)
  | healthy
  | registered (rec : Record)
  | namesOk (count : Nat) (storage : String) (names : List Record)
  | pingOk (connected : Bool)
  | setOk (key value : String) (ttl : Option Nat)
  | getOk (key : String) (value : Option String) (found : Bool)
  | incrOk (key : String) (value : Int)
  | err (code : Nat) (msg : String)
deriving Repr, DecidableEq

/-- HTTP status of a response: 201 for a successful registration (line 89/96),
the carried code for error envelopes, 200 otherwise. -/
def Response.status : Response → Nat
  | .registered _ => 201
  | .err code _ => code
  | _ => 200

/-- The `names` list of a `GET /names` success body, if the response is one. -/
def Response.namesList : Response → Option (List Record)
  | .namesOk _ _ names => some names
  | _ => none

/-- `initDb` (lines 39–57): no-op in in-memory mode; otherwise run
`CREATE TABLE IF NOT EXISTS` — on failure (`dbOk = false`) fall back
permanently by setting `useInMemory = true` (line 55). -/
def initDb (dbOk : Bool) (s : ServerState) : ServerState :=
  if s.useInMemory then s
  else if dbOk then s
  else { s with useInMemory := true }

/-- `GET /` handler (lines 60–70), restricted to the fields backed by state. -/
def getRoot (s : ServerState) : ServerState × Response :=
  (s, .rootInfo (if s.useInMemory then "in-memory" else "postgres")
      (if s.redisConnected then "connected"
       else if s.redisConfigured then "disconnected" else "not configured"))

/-- `GET /health` handler (lines 73–75). -/
def getHealth (s : ServerState) : ServerState × Response :=
  (s, .healthy)

/-- `POST /register` handler (lines 78–101).  `name` is the optional `name`
field of the body, `now` the current time, `dbOk` whether the `INSERT` query
would succeed on this request. -/
def postRegister (name : Option String) (now : Nat) (dbOk : Bool)
    (s : ServerState) : ServerState × Response :=
  if strFalsy name then
    (s, .err 400 "Name is required")
  else
    let n := name.getD ""
    if s.useInMemory then
      let entry : Record :=
        { id := s.inMemoryNames.length + 1, name := n, created_at := now }
      ({ s with inMemoryNames := s.inMemoryNames ++ [entry] },
       .registered entry)
    else if dbOk then
      let entry : Record := { id := s.dbNextId, name := n, created_at := now }
      ({ s with dbRows := s.dbRows ++ [entry], dbNextId := s.dbNextId + 1 },
       .registered entry)
    else
      (s, .err 500 "Failed to register name")

/-- `ORDER BY created_at DESC` (line 110): the rows sorted by descending
timestamp. -/
def orderByCreatedAtDesc (rows : List Record) : List Record :=
  rows.mergeSort (fun a b => b.created_at ≤ a.created_at)

/-- `GET /names` handler (lines 104–116). -/
def getNames (dbOk : Bool) (s : ServerState) : ServerState × Response :=
  if s.useInMemory then
    (s, .namesOk s.inMemoryNames.length "in-memory" s.inMemoryNames)
  else if dbOk then
    (s, .namesOk s.dbRows.length "postgres" (orderByCreatedAtDesc s.dbRows))
  else
    (s, .err 500 "Failed to fetch names")

/-- `GET /redis/ping` handler (lines 121–131). -/
def getRedisPing (redisOk : Bool) (s : ServerState) : ServerState × Response :=
  if !s.redisConfigured then
    (s, .err 503 "Redis not configured")
  else if redisOk then
    (s, .pingOk s.redisConnected)
  else
    (s, .err 500 "Redis ping failed")

/-- `POST /redis/set` handler (lines 134–152): 503 when `redis` is null, 400
when `!key || value === undefined`, otherwise `SET` with an `EX ttl`
expiration exactly when `ttl` is truthy. -/
def postRedisSet (key value : Option String) (ttl : Option Nat) (redisOk : Bool)
    (s : ServerState) : ServerState × Response :=
  if !s.redisConfigured then
    (s, .err 503 "Redis not configured")
  else if strFalsy key || value = none then
    (s, .err 400 "key and value are required")
  else
    let k := key.getD ""
    let v := value.getD ""
    if redisOk then
      let e : RedisEntry :=
        { value := v, expiry := if ttlTruthy ttl then ttl else none }
      ({ s with redisKV := kvSet s.redisKV k e },
       .setOk k v (if ttlTruthy ttl then ttl else none))
    else
      (s, .err 500 "Redis set failed")

/-- `GET /redis/get/:key` handler (lines 155–165): `exists` is
`value !== null`. -/
def getRedisGet (key : String) (redisOk : Bool) (s : ServerState) :
    ServerState × Response :=
  if !s.redisConfigured then
    (s, .err 503 "Redis not configured")
  else if redisOk then
    let value := (kvLookup s.redisKV key).map (·.value)
    (s, .getOk key value value.isSome)
  else
    (s, .err 500 "Redis get failed")

/-- Decimal digit value of a character, for the backend's integer parsing. -/
def digitVal (c : Char) : Option Nat :=
  if '0' ≤ c ∧ c ≤ '9' then some (c.toNat - '0'.toNat) else none

/-- Accumulate decimal digits; any non-digit rejects the string. -/
def parseNatAux : List Char → Nat → Option Nat
  | [], acc => some acc
  | c :: cs, acc =>
    match digitVal c with
    | some d => parseNatAux cs (acc * 10 + d)
    | none => none

/-- How the Redis backend reads a stored string as an integer for `INCR`:
an optional leading minus sign followed by decimal digits; anything else
makes the command fail. -/
def parseIntString (s : String) : Option Int :=
  match s.data with
  | [] => none
  | '-' :: cs =>
      if cs.isEmpty then none else (parseNatAux cs 0).map (fun n => -(n : Int))
  | cs => (parseNatAux cs 0).map (fun n => (n : Int))

/-- Redis `INCR` on the current entry at a key: a missing key counts as 0 and
becomes 1; an existing value must parse as an integer, else the command
errors; the entry's expiration is untouched. -/
def incrEntry : Option RedisEntry → Option (Int × RedisEntry)
  | none => some (1, { value := "1", expiry := none })
  | some e =>
    match parseIntString e.value with
    | none => none
    | some n => some (n + 1, { value := toString (n + 1), expiry := e.expiry })

/-- `GET /redis/incr/:key` handler (lines 168–178); a non-integer stored
value makes `redis.incr` reject, caught as a 500. -/
def getRedisIncr (key : String) (redisOk : Bool) (s : ServerState) :
    ServerState × Response :=
  if !s.redisConfigured then
    (s, .err 503 "Redis not configured")
  else if redisOk then
    match incrEntry (kvLookup s.redisKV key) with
    | some (n, e) =>
        ({ s with redisKV := kvSet s.redisKV key e }, .incrOk key n)
    | none => (s, .err 500 "Redis incr failed")
  else
    (s, .err 500 "Redis incr failed")

/-- An HTTP request to the service, together with the external conditions it
meets: `now` the request time, `dbOk` / `redisOk` whether the backend query
issued by this request would succeed. -/
inductive Request where
  | root
  | health
  | register (name : Option String) (now : Nat) (dbOk : Bool)
  | names (dbOk : Bool)
  | redisPing (redisOk : Bool)
  | redisSet (key value : Option String) (ttl : Option Nat) (redisOk : Bool)
  | redisGet (key : String) (redisOk : Bool)
  | redisIncr (key : String) (redisOk : Bool)
deriving Repr, DecidableEq

/-- Dispatch a request to its route handler. -/
def handle : Request → ServerState → ServerState × Response
  | .root, s => getRoot s
  | .health, s => getHealth s
  | .register name now dbOk, s => postRegister name now dbOk s
  | .names dbOk, s => getNames dbOk s
  | .redisPing redisOk, s => getRedisPing redisOk s
  | .redisSet key value ttl redisOk, s => postRedisSet key value ttl redisOk s
  | .redisGet key redisOk, s => getRedisGet key redisOk s
  | .redisIncr key redisOk, s => getRedisIncr key redisOk s

/-- One state transition of the process after startup: the asynchronous
`initDb` call (line 184), a handled request, or one of the Redis connection
events (lines 28–35). -/
inductive Step where
  | initStep (dbOk : Bool)
  | req (r : Request)
  | redisConnect
  | redisError
deriving Repr, DecidableEq

/-- Effect of one step on the process state. -/
def applyStep (st : Step) (s : ServerState) : ServerState :=
  match st with
  | .initStep dbOk => initDb dbOk s
  | .req r => (handle r s).1
  | .redisConnect => { s with redisConnected := true }
  | .redisError => { s with redisConnected := false }

/-- Run a sequence of steps from a state. -/
def execSteps (steps : List Step) (s : ServerState) : ServerState :=
  steps.foldl (fun s st => applyStep st s) s

/-! ### Basic state-preservation lemmas

No handler writes `useInMemory`; `initDb` is the only writer and only ever
sets it to `true`. -/

theorem getNames_fst (dbOk : Bool) (s : ServerState) : (getNames dbOk s).1 = s := by
  unfold getNames
  repeat' split
  all_goals rfl

theorem postRegister_useInMemory (name : Option String) (now : Nat) (dbOk : Bool)
    (s : ServerState) : (postRegister name now dbOk s).1.useInMemory = s.useInMemory := by
  unfold postRegister
  repeat' split
  all_goals rfl

theorem postRedisSet_useInMemory (key value : Option String) (ttl : Option Nat)
    (redisOk : Bool) (s : ServerState) :
    (postRedisSet key value ttl redisOk s).1.useInMemory = s.useInMemory := by
  unfold postRedisSet
  repeat' split
  all_goals rfl

theorem getRedisIncr_useInMemory (key : String) (redisOk : Bool) (s : ServerState) :
    (getRedisIncr key redisOk s).1.useInMemory = s.useInMemory := by
  unfold getRedisIncr
  repeat' split
  all_goals rfl

theorem getRedisGet_fst (key : String) (redisOk : Bool) (s : ServerState) :
    (getRedisGet key redisOk s).1 = s := by
  unfold getRedisGet
  repeat' split
  all_goals rfl

theorem getRedisPing_fst (redisOk : Bool) (s : ServerState) :
    (getRedisPing redisOk s).1 = s := by
  unfold getRedisPing
  repeat' split
  all_goals rfl

theorem handle_useInMemory (r : Request) (s : ServerState) :
    (handle r s).1.useInMemory = s.useInMemory := by
  cases r with
  | root => rfl
  | health => rfl
  | register name now dbOk => exact postRegister_useInMemory name now dbOk s
  | names dbOk => rw [handle, getNames_fst]
  | redisPing redisOk => rw [handle, getRedisPing_fst]
  | redisSet key value ttl redisOk => exact postRedisSet_useInMemory key value ttl redisOk s
  | redisGet key redisOk => rw [handle, getRedisGet_fst]
  | redisIncr key redisOk => exact getRedisIncr_useInMemory key redisOk s

theorem initDb_useInMemory_of (dbOk : Bool) (s : ServerState)
    (h : s.useInMemory = true) : (initDb dbOk s).useInMemory = true := by
  unfold initDb
  simp [h]

theorem applyStep_useInMemory_of (st : Step) (s : ServerState)
    (h : s.useInMemory = true) : (applyStep st s).useInMemory = true := by
  cases st with
  | initStep dbOk => exact initDb_useInMemory_of dbOk s h
  | req r => rw [applyStep, handle_useInMemory]; exact h
  | redisConnect => exact h
  | redisError => exact h

theorem execSteps_useInMemory_of (steps : List Step) (s : ServerState)
    (h : s.useInMemory = true) : (execSteps steps s).useInMemory = true := by
  induction steps generalizing s with
  | nil => exact h
  | cons st rest ih => exact ih (applyStep st s) (applyStep_useInMemory_of st s h)

/-! ### Claim theorems -/

/-- C1: with `DATABASE_URL` unset at startup, `useInMemory` is `true` in the
initial state and after any sequence of steps (no operation ever switches the
mode to persistent), and in any such state `GET /names` responds 200 with
`storage: "in-memory"` and the in-memory list. -/
theorem no_db_url_in_memory_forever (redisUrlSet : Bool) (steps : List Step) (dbOk : Bool) :
    (execSteps steps (initialState false redisUrlSet)).useInMemory = true ∧
    (getNames dbOk (execSteps steps (initialState false redisUrlSet))).2 =
      .namesOk (execSteps steps (initialState false redisUrlSet)).inMemoryNames.length
        "in-memory" (execSteps steps (initialState false redisUrlSet)).inMemoryNames ∧
    ((getNames dbOk (execSteps steps (initialState false redisUrlSet))).2).status = 200 := by
  have h : (execSteps steps (initialState false redisUrlSet)).useInMemory = true :=
    execSteps_useInMemory_of steps _ rfl
  refine ⟨h, ?_, ?_⟩ <;> simp [getNames, h, Response.status]

/-- C2: if persistent-backend initialization fails, `useInMemory` is set to
`true`, and the downgrade is permanent: after any further sequence of steps it
is still `true`. -/
theorem init_failure_downgrade_permanent (s : ServerState) (steps : List Step) :
    (initDb false s).useInMemory = true ∧
    (execSteps steps (initDb false s)).useInMemory = true := by
  have h : (initDb false s).useInMemory = true := by
    unfold initDb
    split
    · assumption
    · simp
  exact ⟨h, execSteps_useInMemory_of steps _ h⟩

/-- C3: `POST /register` with a missing or empty `name` responds 400 and
leaves the whole state (in-memory list and persistent table alike) unchanged. -/
theorem register_missing_name_400 (name : Option String) (now : Nat) (dbOk : Bool)
    (s : ServerState) (h : strFalsy name = true) :
    postRegister name now dbOk s = (s, .err 400 "Name is required") := by
  unfold postRegister
  simp [h]

/-- Witness for C3 at `name = none` on the fresh in-memory state. -/
theorem register_missing_name_400_witness :
    strFalsy none = true ∧
    postRegister none 0 true (initialState false false) =
      (initialState false false, .err 400 "Name is required") :=
  ⟨rfl, register_missing_name_400 none 0 true (initialState false false) rfl⟩

/-- C9: `GET /names` never mutates the state, so two consecutive `GET /names`
requests under the same backend conditions return identical responses. -/
theorem get_names_idempotent (dbOk : Bool) (s : ServerState) :
    (getNames dbOk s).1 = s ∧
    (getNames dbOk ((getNames dbOk s).1)).2 = (getNames dbOk s).2 := by
  refine ⟨getNames_fst dbOk s, ?_⟩
  rw [getNames_fst]

/-- Writing a key and reading it back yields exactly the written entry. -/
theorem kvLookup_kvSet (kv : List (String × RedisEntry)) (k : String) (e : RedisEntry) :
    kvLookup (kvSet kv k e) k = some e := by
  induction kv with
  | nil => simp [kvSet, kvLookup]
  | cons p rest ih =>
    obtain ⟨k', e'⟩ := p
    by_cases hk : k' = k
    · simp [kvSet, hk, kvLookup]
    · simpa [kvSet, hk, kvLookup] using ih

/-- C6: `GET /redis/get/:key` on a configured, reachable backend for a key
that is not in the keyspace responds 200 with `value: null`, `exists: false`,
and does not change the state. -/
theorem get_unset_key_not_error (key : String) (s : ServerState)
    (hconf : s.redisConfigured = true) (hfresh : kvLookup s.redisKV key = none) :
    getRedisGet key true s = (s, .getOk key none false) := by
  simp [getRedisGet, hconf, hfresh]

/-- Witness for C6: the fresh key "counter" on the freshly started state with
`REDIS_URL` set. -/
theorem get_unset_key_not_error_witness :
    (initialState false true).redisConfigured = true ∧
    kvLookup (initialState false true).redisKV "counter" = none ∧
    getRedisGet "counter" true (initialState false true) =
      (initialState false true, .getOk "counter" none false) :=
  ⟨rfl, rfl, get_unset_key_not_error "counter" (initialState false true) rfl rfl⟩

/-- C7: two sequential `GET /redis/incr/:key` requests on a key absent from
the keyspace (backend configured and reachable) return 1 and then 2. -/
theorem incr_fresh_key_one_then_two (key : String) (s : ServerState)
    (hconf : s.redisConfigured = true) (hfresh : kvLookup s.redisKV key = none) :
    (getRedisIncr key true s).2 = .incrOk key 1 ∧
    (getRedisIncr key true (getRedisIncr key true s).1).2 = .incrOk key 2 := by
  have h1 : getRedisIncr key true s =
      ({ s with redisKV := kvSet s.redisKV key { value := "1", expiry := none } },
        .incrOk key 1) := by
    simp [getRedisIncr, hconf, hfresh, incrEntry]
  refine ⟨by rw [h1], ?_⟩
  rw [h1]
  have h2 : kvLookup (kvSet s.redisKV key { value := "1", expiry := none }) key =
      some { value := "1", expiry := none } := kvLookup_kvSet s.redisKV key _
  have hp : parseIntString "1" = some 1 := by decide
  simp [getRedisIncr, hconf, h2, incrEntry, hp]

/-- Witness for C7: the fresh key "hits" on the freshly started state with
`REDIS_URL` set. -/
theorem incr_fresh_key_one_then_two_witness :
    (initialState false true).redisConfigured = true ∧
    kvLookup (initialState false true).redisKV "hits" = none ∧
    ((getRedisIncr "hits" true (initialState false true)).2 = .incrOk "hits" 1 ∧
      (getRedisIncr "hits" true
        (getRedisIncr "hits" true (initialState false true)).1).2 = .incrOk "hits" 2) :=
  ⟨rfl, rfl, incr_fresh_key_one_then_two "hits" (initialState false true) rfl rfl⟩

/-- C5 counterexample: on a configured, reachable backend, (a) a present but
empty `key` with a present `value` is still rejected with 400 (the claim says
400 happens exactly when `key` or `value` is absent), and (b) `ttl = 0` is
given, validation passes, yet no expiration is applied (the claim says an
expiration is applied if and only if a `ttl` was given). -/
theorem redis_set_validation_counterexample :
    ((postRedisSet (some "") (some "x") none true (initialState false true)).2).status = 400 ∧
    some "" ≠ (none : Option String) ∧ some "x" ≠ (none : Option String) ∧
    ((postRedisSet (some "k") (some "v") (some 0) true (initialState false true)).2).status = 200 ∧
    kvLookup ((postRedisSet (some "k") (some "v") (some 0) true
        (initialState false true)).1).redisKV "k" =
      some { value := "v", expiry := none } := by
  refine ⟨?_, ?_, ?_, ?_, ?_⟩ <;> decide

/-- C5 amended: on a configured backend, `POST /redis/set` responds 400
exactly when the `key` field is absent or falsy (empty) or the `value` field
is absent — a present-but-empty `value` is not rejected — and on a 200
response the written entry carries an expiration if and only if a truthy
(non-zero) `ttl` was given, with that `ttl` as the expiration. -/
theorem redis_set_validation_amended (key value : Option String) (ttl : Option Nat)
    (redisOk : Bool) (s : ServerState) (hconf : s.redisConfigured = true) :
    (((postRedisSet key value ttl redisOk s).2).status = 400 ↔
      (strFalsy key = true ∨ value = none)) ∧
    (((postRedisSet key value ttl redisOk s).2).status = 200 →
      ∃ k v, key = some k ∧ value = some v ∧
        kvLookup ((postRedisSet key value ttl redisOk s).1).redisKV k =
          some { value := v, expiry := if ttlTruthy ttl then ttl else none }) := by
  cases key with
  | none => simp [postRedisSet, hconf, strFalsy, Response.status]
  | some k =>
    cases value with
    | none => simp [postRedisSet, hconf, strFalsy, Response.status]
    | some v =>
      by_cases hks : k = ""
      · subst hks
        simp [postRedisSet, hconf, strFalsy, Response.status]
      · cases redisOk with
        | false => simp [postRedisSet, hconf, strFalsy, hks, Response.status]
        | true =>
          simp [postRedisSet, hconf, strFalsy, hks, Response.status, kvLookup_kvSet]

/-- Witness for the amended C5 at `key = "a"`, an empty but present `value`,
`ttl = 5`, on the freshly started state with `REDIS_URL` set. -/
theorem redis_set_validation_amended_witness :
    (initialState false true).redisConfigured = true ∧
    ((((postRedisSet (some "a") (some "") (some 5) true (initialState false true)).2).status = 400 ↔
        (strFalsy (some "a") = true ∨ (some "" : Option String) = none)) ∧
      (((postRedisSet (some "a") (some "") (some 5) true (initialState false true)).2).status = 200 →
        ∃ k v, (some "a" : Option String) = some k ∧ (some "" : Option String) = some v ∧
          kvLookup ((postRedisSet (some "a") (some "") (some 5) true
              (initialState false true)).1).redisKV k =
            some { value := v, expiry := if ttlTruthy (some 5) then some 5 else none })) :=
  ⟨rfl, redis_set_validation_amended (some "a") (some "") (some 5) true
    (initialState false true) rfl⟩

/-- `ORDER BY created_at DESC` yields a list whose timestamps are pairwise
non-increasing. -/
theorem orderByCreatedAtDesc_sorted (rows : List Record) :
    List.Pairwise (fun a b : Record => b.created_at ≤ a.created_at)
      (orderByCreatedAtDesc rows) := by
  have h := @List.sorted_mergeSort Record
    (fun a b : Record => decide (b.created_at ≤ a.created_at))
    (fun a b c h1 h2 => by
      simp only [decide_eq_true_eq] at h1 h2 ⊢
      omega)
    (fun a b => by
      simpa using Nat.le_total b.created_at a.created_at)
    rows
  exact h.imp (fun hab => by simpa using hab)

/-- `ORDER BY created_at DESC` yields a permutation of the table's rows. -/
theorem orderByCreatedAtDesc_perm (rows : List Record) :
    (orderByCreatedAtDesc rows).Perm rows :=
  List.mergeSort_perm rows _

/-- C8: the ordering of the records returned by `GET /names` depends on the
backend — in in-memory mode the response is the in-memory list itself, which
successful registrations extend only at the end (insertion order); in
persistent mode the returned list is a permutation of the table sorted by
`created_at` descending. -/
theorem list_ordering_depends_on_mode (s : ServerState) (dbOk : Bool) :
    (s.useInMemory = true →
      (getNames dbOk s).2 =
        .namesOk s.inMemoryNames.length "in-memory" s.inMemoryNames) ∧
    (s.useInMemory = false →
      ∀ l, ((getNames dbOk s).2).namesList = some l →
        List.Pairwise (fun a b : Record => b.created_at ≤ a.created_at) l ∧
          l.Perm s.dbRows) ∧
    (∀ (name : Option String) (now : Nat) (dbOk' : Bool),
      s.useInMemory = true → strFalsy name = false →
      ((postRegister name now dbOk' s).1).inMemoryNames =
        s.inMemoryNames ++
          [{ id := s.inMemoryNames.length + 1, name := name.getD "",
             created_at := now }]) := by
  refine ⟨?_, ?_, ?_⟩
  · intro h
    simp [getNames, h]
  · intro h l hl
    cases dbOk with
    | false => simp [getNames, h, Response.namesList] at hl
    | true =>
      simp only [getNames, h, Bool.false_eq_true, if_false, if_true,
        Response.namesList, Option.some.injEq] at hl
      subst hl
      exact ⟨orderByCreatedAtDesc_sorted s.dbRows, orderByCreatedAtDesc_perm s.dbRows⟩
  · intro name now dbOk' h hf
    simp [postRegister, hf, h]

/-- The list of records backing the current storage mode. -/
def currentStore (s : ServerState) : List Record :=
  if s.useInMemory then s.inMemoryNames else s.dbRows

/-- Id discipline of the two stores: every in-memory id is at most the list's
length (the next insert uses length + 1), and every table id is below the
`SERIAL` counter. -/
def idsBounded (s : ServerState) : Prop :=
  (∀ r ∈ s.inMemoryNames, r.id ≤ s.inMemoryNames.length) ∧
  (∀ r ∈ s.dbRows, r.id < s.dbNextId)

theorem idsBounded_initialState (d r : Bool) : idsBounded (initialState d r) := by
  constructor <;> simp [initialState]

theorem idsBounded_applyStep (st : Step) (s : ServerState) (h : idsBounded s) :
    idsBounded (applyStep st s) := by
  obtain ⟨h1, h2⟩ := h
  cases st with
  | initStep dbOk =>
    show idsBounded (initDb dbOk s)
    unfold initDb
    repeat' split
    all_goals exact ⟨h1, h2⟩
  | redisConnect => exact ⟨h1, h2⟩
  | redisError => exact ⟨h1, h2⟩
  | req r =>
    cases r with
    | root => exact ⟨h1, h2⟩
    | health => exact ⟨h1, h2⟩
    | names dbOk =>
      show idsBounded (getNames dbOk s).1
      rw [getNames_fst]
      exact ⟨h1, h2⟩
    | redisPing redisOk =>
      show idsBounded (getRedisPing redisOk s).1
      rw [getRedisPing_fst]
      exact ⟨h1, h2⟩
    | redisGet key redisOk =>
      show idsBounded (getRedisGet key redisOk s).1
      rw [getRedisGet_fst]
      exact ⟨h1, h2⟩
    | redisSet key value ttl redisOk =>
      show idsBounded (postRedisSet key value ttl redisOk s).1
      unfold postRedisSet
      repeat' split
      all_goals exact ⟨h1, h2⟩
    | redisIncr key redisOk =>
      show idsBounded (getRedisIncr key redisOk s).1
      unfold getRedisIncr
      repeat' split
      all_goals exact ⟨h1, h2⟩
    | register name now dbOk =>
      show idsBounded (postRegister name now dbOk s).1
      unfold postRegister
      split
      · exact ⟨h1, h2⟩
      · split
        · refine ⟨?_, h2⟩
          intro r hr
          simp only [List.mem_append, List.mem_singleton] at hr
          simp only [List.length_append, List.length_singleton]
          rcases hr with hr | hr
          · have := h1 r hr
            omega
          · subst hr
            simp
        · split
          · refine ⟨h1, ?_⟩
            intro r hr
            simp only [List.mem_append, List.mem_singleton] at hr
            show r.id < s.dbNextId + 1
            rcases hr with hr | hr
            · have := h2 r hr
              omega
            · subst hr
              simp
          · exact ⟨h1, h2⟩

theorem idsBounded_execSteps_of (steps : List Step) (s : ServerState)
    (h : idsBounded s) : idsBounded (execSteps steps s) := by
  induction steps generalizing s with
  | nil => exact h
  | cons st rest ih => exact ih (applyStep st s) (idsBounded_applyStep st s h)

/-- C4: in any state reachable from startup, a successful `POST /register`
responds with a record carrying the requested name whose id is strictly
greater than the id of every record already in the backing store, and a
subsequent successful `GET /names` lists that very record. -/
theorem register_then_names_fresh_id (dbUrlSet redisUrlSet : Bool) (steps : List Step)
    (name : String) (now : Nat) (dbOk dbOk2 : Bool)
    (hsucc : ((postRegister (some name) now dbOk
        (execSteps steps (initialState dbUrlSet redisUrlSet))).2).status = 201) :
    ∃ rec,
      (postRegister (some name) now dbOk
          (execSteps steps (initialState dbUrlSet redisUrlSet))).2 = .registered rec ∧
      rec.name = name ∧
      (∀ r ∈ currentStore (execSteps steps (initialState dbUrlSet redisUrlSet)),
        r.id < rec.id) ∧
      (∀ l, ((getNames dbOk2 ((postRegister (some name) now dbOk
            (execSteps steps (initialState dbUrlSet redisUrlSet))).1)).2).namesList =
          some l → rec ∈ l) := by
  obtain ⟨h1, h2⟩ :=
    idsBounded_execSteps_of steps _ (idsBounded_initialState dbUrlSet redisUrlSet)
  set s := execSteps steps (initialState dbUrlSet redisUrlSet) with hs
  by_cases hf : strFalsy (some name) = true
  · exfalso
    simp [postRegister, hf, Response.status] at hsucc
  · replace hf : strFalsy (some name) = false := by
      cases hsf : strFalsy (some name)
      · rfl
      · exact absurd hsf hf
    cases hmem : s.useInMemory with
    | true =>
      refine ⟨{ id := s.inMemoryNames.length + 1, name := name, created_at := now },
        ?_, rfl, ?_, ?_⟩
      · simp [postRegister, hf, hmem]
      · intro r hr
        rw [currentStore, hmem] at hr
        have := h1 r (by simpa using hr)
        simp only []
        omega
      · intro l hl
        have hstate : (postRegister (some name) now dbOk s).1 =
            { s with inMemoryNames := s.inMemoryNames ++
                [{ id := s.inMemoryNames.length + 1, name := name, created_at := now }] } := by
          simp [postRegister, hf, hmem]
        rw [hstate] at hl
        simp only [getNames, hmem, if_true, Response.namesList, Option.some.injEq] at hl
        subst hl
        simp
    | false =>
      cases dbOk with
      | false =>
        exfalso
        simp [postRegister, hf, hmem, Response.status] at hsucc
      | true =>
        refine ⟨{ id := s.dbNextId, name := name, created_at := now },
          ?_, rfl, ?_, ?_⟩
        · simp [postRegister, hf, hmem]
        · intro r hr
          rw [currentStore, hmem] at hr
          have := h2 r (by simpa using hr)
          simp only []
          omega
        · intro l hl
          have hstate : (postRegister (some name) now true s).1 =
              { s with
                dbRows := s.dbRows ++
                  [{ id := s.dbNextId, name := name, created_at := now }]
                dbNextId := s.dbNextId + 1 } := by
            simp [postRegister, hf, hmem]
          rw [hstate] at hl
          cases dbOk2 with
          | false =>
            simp [getNames, hmem, Response.namesList] at hl
          | true =>
            simp only [getNames, hmem, Bool.false_eq_true, if_false, if_true,
              Response.namesList, Option.some.injEq] at hl
            subst hl
            rw [List.Perm.mem_iff (orderByCreatedAtDesc_perm _)]
            simp

/-- Witness for C4: registering "alice" on the fresh in-memory store. -/
theorem register_then_names_fresh_id_witness :
    ((postRegister (some "alice") 0 true
        (execSteps [] (initialState false false))).2).status = 201 ∧
    ∃ rec,
      (postRegister (some "alice") 0 true
          (execSteps [] (initialState false false))).2 = .registered rec ∧
      rec.name = "alice" ∧
      (∀ r ∈ currentStore (execSteps [] (initialState false false)), r.id < rec.id) ∧
      (∀ l, ((getNames true ((postRegister (some "alice") 0 true
            (execSteps [] (initialState false false))).1)).2).namesList = some l →
        rec ∈ l) :=
  ⟨by decide,
    register_then_names_fresh_id false false [] "alice" 0 true true (by decide)⟩

/-- Registering a block of non-empty names in in-memory mode keeps the stored
ids equal to `1..length`. -/
theorem registers_keep_consecutive_ids (names : List String) (s : ServerState)
    (hmem : s.useInMemory = true) (hne : ∀ n ∈ names, n ≠ "")
    (hids : s.inMemoryNames.map Record.id = List.range' 1 s.inMemoryNames.length) :
    (execSteps (names.map fun n => Step.req (.register (some n) 0 true))
        s).inMemoryNames.map Record.id =
      List.range' 1 ((execSteps (names.map fun n => Step.req (.register (some n) 0 true))
        s).inMemoryNames.length) ∧
    (execSteps (names.map fun n => Step.req (.register (some n) 0 true))
        s).inMemoryNames.length = s.inMemoryNames.length + names.length := by
  induction names generalizing s with
  | nil => exact ⟨hids, (Nat.add_zero _).symm⟩
  | cons n rest ih =>
    have hn : n ≠ "" := hne n (List.mem_cons_self n rest)
    have hf : strFalsy (some n) = false := by simp [strFalsy, hn]
    have hstate : applyStep (Step.req (.register (some n) 0 true)) s =
        { s with inMemoryNames := s.inMemoryNames ++
            [{ id := s.inMemoryNames.length + 1, name := n, created_at := 0 }] } := by
      show (postRegister (some n) 0 true s).1 = _
      simp [postRegister, hf, hmem]
    have hstep : execSteps ((n :: rest).map fun m => Step.req (.register (some m) 0 true)) s =
        execSteps (rest.map fun m => Step.req (.register (some m) 0 true))
          (applyStep (Step.req (.register (some n) 0 true)) s) := rfl
    rw [hstep, hstate]
    have hids' : ({ s with inMemoryNames := s.inMemoryNames ++
          [{ id := s.inMemoryNames.length + 1, name := n, created_at := 0 }]
        } : ServerState).inMemoryNames.map Record.id =
        List.range' 1 ({ s with inMemoryNames := s.inMemoryNames ++
          [{ id := s.inMemoryNames.length + 1, name := n, created_at := 0 }]
        } : ServerState).inMemoryNames.length := by
      simp only [List.map_append, hids, List.length_append, List.length_singleton,
        List.map_cons, List.map_nil, List.range'_1_concat]
      simp [Nat.add_comm]
    obtain ⟨ha, hb⟩ := ih
      { s with inMemoryNames := s.inMemoryNames ++
          [{ id := s.inMemoryNames.length + 1, name := n, created_at := 0 }] }
      hmem (fun m hm => hne m (List.mem_cons_of_mem n hm)) hids'
    refine ⟨ha, ?_⟩
    rw [hb]
    show (s.inMemoryNames ++
        [({ id := s.inMemoryNames.length + 1, name := n, created_at := 0 } : Record)]).length +
        rest.length = s.inMemoryNames.length + (n :: rest).length
    simp only [List.length_append, List.length_singleton, List.length_cons,
      List.length_nil]
    omega

/-- C10: in in-memory mode every successful `POST /register` assigns the new
record id `length + 1`, so after registering a list of non-empty names on the
fresh store the stored ids are exactly the consecutive integers `1..n`. -/
theorem in_memory_ids_consecutive (names : List String) (hne : ∀ n ∈ names, n ≠ "") :
    (∀ (s : ServerState) (nm : Option String) (now : Nat) (dbOk : Bool),
      s.useInMemory = true → strFalsy nm = false →
      (postRegister nm now dbOk s).2 =
        .registered { id := s.inMemoryNames.length + 1, name := nm.getD "",
                      created_at := now }) ∧
    (execSteps (names.map fun n => Step.req (.register (some n) 0 true))
        (initialState false false)).inMemoryNames.map Record.id =
      List.range' 1 names.length := by
  constructor
  · intro s nm now dbOk hmem hf
    simp [postRegister, hf, hmem]
  · obtain ⟨ha, hb⟩ := registers_keep_consecutive_ids names (initialState false false)
      rfl hne (by simp [initialState])
    rw [ha, hb]
    simp [initialState]

/-- Witness for C10 at the two non-empty names "alice" and "bob". -/
theorem in_memory_ids_consecutive_witness :
    (∀ n ∈ (["alice", "bob"] : List String), n ≠ "") ∧
    ((∀ (s : ServerState) (nm : Option String) (now : Nat) (dbOk : Bool),
      s.useInMemory = true → strFalsy nm = false →
      (postRegister nm now dbOk s).2 =
        .registered { id := s.inMemoryNames.length + 1, name := nm.getD "",
                      created_at := now }) ∧
    (execSteps ((["alice", "bob"] : List String).map
        fun n => Step.req (.register (some n) 0 true))
        (initialState false false)).inMemoryNames.map Record.id =
      List.range' 1 (["alice", "bob"] : List String).length) :=
  ⟨by decide, in_memory_ids_consecutive ["alice", "bob"] (by decide)⟩

end Server
